import Mathlib

/-!
# Verification of the realestate-to-trello object gateway

A shallow embedding of the repository's two Cloudflare Pages functions:

* `functions/api/stream.js` — the Range Delivery Engine (`streamGet` below),
  embedded from the named current file `src/functions/api/stream.js`.
* `functions/api/sample.js` — the Pointer Resolver (`sampleGet` below).
  The repository bundles several historical variants of this handler; we embed
  the latest one (the `streamUrl` variant, which returns HTTP 200 with a
  structured JSON body for every outcome), which is the variant the spec's
  §4.1/§9 designate as the chosen contract.

The object-storage backend (R2) is modelled as an association list of keys to
objects; `list` returns keys in the backend's listing order (lexicographic),
which we represent by keeping bucket snapshots in that order.

JavaScript strings are Lean `String`s; byte bodies are `List Nat` with each
element `< 256`.  `encodeURIComponent` and the query-string decoding done by
`URLSearchParams` (percent-decoding of UTF-8 bytes) are embedded at the
byte level, with the UTF-8 encoder/decoder written out explicitly.
-/

namespace Gateway

/-! ## Characters, hex digits, and UTF-8 bytes -/

/-- Upper-case hexadecimal digit for `n < 16` (as emitted by
`encodeURIComponent`). -/
def hexChar (n : Nat) : Char :=
  if n < 10 then Char.ofNat (48 + n) else Char.ofNat (55 + n)

/-- Value of a hexadecimal digit character, accepting both cases. -/
def hexVal (c : Char) : Option Nat :=
  if 48 ≤ c.toNat ∧ c.toNat ≤ 57 then some (c.toNat - 48)
  else if 65 ≤ c.toNat ∧ c.toNat ≤ 70 then some (c.toNat - 55)
  else if 97 ≤ c.toNat ∧ c.toNat ≤ 102 then some (c.toNat - 87)
  else none

/-- The UTF-8 bytes of a single character, computed from its code point. -/
def charBytes (c : Char) : List Nat :=
  let cp := c.toNat
  if cp < 0x80 then [cp]
  else if cp < 0x800 then [0xC0 + cp / 0x40, 0x80 + cp % 0x40]
  else if cp < 0x10000 then
    [0xE0 + cp / 0x1000, 0x80 + (cp / 0x40) % 0x40, 0x80 + cp % 0x40]
  else
    [0xF0 + cp / 0x40000, 0x80 + (cp / 0x1000) % 0x40,
     0x80 + (cp / 0x40) % 0x40, 0x80 + cp % 0x40]

/-- UTF-8 decoding of a byte list into characters; `none` on a truncated or
ill-formed sequence. -/
def utf8Decode : List Nat → Option (List Char)
  | [] => some []
  | b :: r =>
    if b < 0x80 then (utf8Decode r).map (Char.ofNat b :: ·)
    else if b < 0xC0 then none
    else
      match r with
      | [] => none
      | b2 :: r2 =>
        if b < 0xE0 then
          if 0x80 ≤ b2 ∧ b2 < 0xC0 then
            (utf8Decode r2).map (Char.ofNat ((b - 0xC0) * 0x40 + (b2 - 0x80)) :: ·)
          else none
        else
          match r2 with
          | [] => none
          | b3 :: r3 =>
            if b < 0xF0 then
              if (0x80 ≤ b2 ∧ b2 < 0xC0) ∧ (0x80 ≤ b3 ∧ b3 < 0xC0) then
                (utf8Decode r3).map
                  (Char.ofNat ((b - 0xE0) * 0x1000 + (b2 - 0x80) * 0x40 + (b3 - 0x80)) :: ·)
              else none
            else
              match r3 with
              | [] => none
              | b4 :: r4 =>
                if b < 0xF8 then
                  if (0x80 ≤ b2 ∧ b2 < 0xC0) ∧ (0x80 ≤ b3 ∧ b3 < 0xC0) ∧
                      (0x80 ≤ b4 ∧ b4 < 0xC0) then
                    (utf8Decode r4).map
                      (Char.ofNat ((b - 0xF0) * 0x40000 + (b2 - 0x80) * 0x1000 +
                        (b3 - 0x80) * 0x40 + (b4 - 0x80)) :: ·)
                  else none
                else none

/-! ## `encodeURIComponent` and query-string decoding -/

/-- Characters `encodeURIComponent` leaves unescaped: ASCII alphanumerics and
`- _ . ! ~ * ' ( )`. -/
def isUnreservedURI (c : Char) : Bool :=
  (48 ≤ c.toNat ∧ c.toNat ≤ 57) || (65 ≤ c.toNat ∧ c.toNat ≤ 90) ||
  (97 ≤ c.toNat ∧ c.toNat ≤ 122) ||
  c = '-' || c = '_' || c = '.' || c = '!' || c = '~' || c = '*' ||
  c = '\'' || c = '(' || c = ')'

/-- `%HH` escape of one byte. -/
def escByte (b : Nat) : List Char :=
  ['%', hexChar (b / 16), hexChar (b % 16)]

/-- Encoding of one character as `encodeURIComponent` does: unreserved
characters stand for themselves, everything else is the `%HH` escapes of its
UTF-8 bytes. -/
def encChar (c : Char) : List Char :=
  if isUnreservedURI c then [c] else (charBytes c).flatMap escByte

/-- JavaScript's `encodeURIComponent`. -/
def encodeURIComponent (s : String) : String :=
  String.mk (s.data.flatMap encChar)

/-- Percent-decoding of a query-string component into bytes, as
`application/x-www-form-urlencoded` parsing does: `%HH` becomes a byte,
`+` becomes a space, any other character contributes its UTF-8 bytes.
Decoding is modelled strictly — a truncated or malformed `%` escape yields
`none` (the platform instead keeps it literally; no input produced by the
handlers is malformed, so the difference is outside every theorem's domain). -/
def percentDecodeBytes : List Char → Option (List Nat)
  | [] => some []
  | c :: r =>
    if c = '%' then
      match r with
      | c1 :: c2 :: r2 =>
        match hexVal c1, hexVal c2 with
        | some h1, some h2 => (percentDecodeBytes r2).map ((16 * h1 + h2) :: ·)
        | _, _ => none
      | _ => none
    else if c = '+' then (percentDecodeBytes r).map (32 :: ·)
    else (percentDecodeBytes r).map (charBytes c ++ ·)

/-- Full decoding of a query-string component: percent-decode to bytes, then
UTF-8 decode. -/
def decodeQueryComponent (s : String) : Option String :=
  (percentDecodeBytes s.data).bind (fun bs => (utf8Decode bs).map String.mk)

/-- Split a character list on a separator character (like `String.split` on a
single character: `n` separators yield `n+1` pieces). -/
def splitOnChar (sep : Char) : List Char → List (List Char)
  | [] => [[]]
  | c :: r =>
    let rest := splitOnChar sep r
    if c = sep then [] :: rest
    else
      match rest with
      | h :: t => (c :: h) :: t
      | [] => [[c]]

/-- Split a character list at its first `=` into (name, value); a pair with no
`=` has the whole text as name and an empty value. -/
def splitFirstEq : List Char → (List Char × List Char)
  | [] => ([], [])
  | c :: r =>
    if c = '=' then ([], r)
    else
      let p := splitFirstEq r
      (c :: p.1, p.2)

/-- The query part of a URL string: everything after the first `?` (empty if
there is none). -/
def urlQuery (s : String) : String :=
  match splitOnChar '?' s.data with
  | _ :: q :: rest => String.mk (List.intercalate ['?'] (q :: rest))
  | _ => ""

/-- `URLSearchParams`-style lookup of the first value bound to `name` in a
query string: split on `&`, split each pair at its first `=`, decode names and
values. -/
def getQueryParam (name : String) (query : String) : Option String :=
  let pairs := (splitOnChar '&' query.data).map splitFirstEq
  match pairs.find? (fun p => decodeQueryComponent (String.mk p.1) = some name) with
  | some p => decodeQueryComponent (String.mk p.2)
  | none => none

/-! ## JavaScript string helpers used by the handlers -/

/-- `key.split("/").pop()` — the last `/`-separated segment (empty when the
string ends in `/`). -/
def jsLastSegment (s : String) : String :=
  String.mk ((splitOnChar '/' s.data).getLastD [])

/-- `realKey.replace(/\/+$/, "")` — strip all trailing slashes. -/
def stripTrailingSlashes (s : String) : String :=
  String.mk ((s.data.reverse.dropWhile (fun c => c = '/')).reverse)

/-- `base.replace(/\/$/, "")` — strip a single trailing slash. -/
def stripOneSlash (s : String) : String :=
  if s.data.getLast? = some '/' then String.mk s.data.dropLast else s

/-- Value of a non-empty all-digit string, as `Number` yields on it. -/
def digitsToNat (cs : List Char) : Nat :=
  cs.foldl (fun a c => 10 * a + (c.toNat - 48)) 0

/-- The `stream.js` Range parser: the anchored, case-insensitive regex
`/^bytes=(\d+)-(\d+)?$/i`, yielding the start and the optional end. -/
def parseRangeHeader (s : String) : Option (Nat × Option Nat) :=
  let cs := s.data
  if (cs.take 6).map Char.toLower = "bytes=".data then
    let rest := cs.drop 6
    let ds := rest.takeWhile Char.isDigit
    let rest2 := rest.dropWhile Char.isDigit
    if ds = [] then none
    else
      match rest2 with
      | '-' :: tail =>
        if tail = [] then some (digitsToNat ds, none)
        else if tail.all Char.isDigit then some (digitsToNat ds, some (digitsToNat tail))
        else none
      | _ => none
  else none

/-! ## The object-storage backend (R2) -/

/-- What `pointerObj.json()` yields for a stored object: a parse failure
(the call throws), the JSON literal `null`, or a record with optional string
fields `key` and `company`. -/
inductive PJson where
  | notJson
  | jnull
  | jrec (key : Option String) (company : Option String)
deriving DecidableEq

/-- A stored object: its bytes, its `httpMetadata.contentType`, and its
interpretation as JSON (used only for pointer records).  The object's `size`
is its byte count. -/
structure ObjData where
  bytes : List Nat
  contentType : Option String := none
  json : PJson := .notJson
deriving DecidableEq

/-- A bucket snapshot: keys mapped to objects, kept in the backend's listing
order (lexicographic by key), which `list` exposes. -/
abbrev Bucket := List (String × ObjData)

/-- `env.R2_BUCKET.head(key)` / `get(key)` without a range: the stored object,
if any. -/
def r2getObj (b : Bucket) (k : String) : Option ObjData :=
  List.lookup k b

/-- `env.R2_BUCKET.get(key, { range: { offset, length } })`.  A valid in-bounds
range returns the corresponding slice (the backend truncates a length running
past the end of the object); an out-of-bounds offset or non-positive length
makes the backend call throw, modelled as `.error`. -/
def r2getRange (b : Bucket) (k : String) (offset len : Int) :
    Except Unit (Option (List Nat)) :=
  match r2getObj b k with
  | none => .ok none
  | some o =>
    if 0 ≤ offset ∧ offset < (o.bytes.length : Int) ∧ 0 < len then
      .ok (some ((o.bytes.drop offset.toNat).take len.toNat))
    else .error ()

/-- `env.R2_BUCKET.list({ prefix, limit: 1 })` followed by taking
`objects[0].key`: the first key in listing order carrying the prefix. -/
def listFirst (b : Bucket) (pfx : String) : Option String :=
  ((b.map Prod.fst).filter (fun key => pfx.data.isPrefixOf key.data)).head?

/-! ## The Range Delivery Engine — `src/functions/api/stream.js` -/

/-- Body of an HTTP response: either text (error messages) or object bytes. -/
inductive RBody where
  | text (s : String)
  | bytes (bs : List Nat)
deriving DecidableEq

/-- An HTTP response as the stream handler builds it. -/
structure Response where
  status : Nat
  headers : List (String × String)
  body : RBody
deriving DecidableEq

/-- Value of a response header. -/
def Response.getHeader (r : Response) (name : String) : Option String :=
  (r.headers.find? (fun p => p.1 == name)).map (·.2)

/-- The request data `stream.js` reads: the `key` and `download` query
parameters, the `Range` header, and (unused) further headers. -/
structure StreamRequest where
  key? : Option String
  download? : Option String := none
  rangeHeader? : Option String := none
  extraHeaders : List (String × String) := []
deriving DecidableEq

/-- The `Content-Disposition` value built for `?download=1`: the key's last
path segment (or `video.mp4` if empty), with double quotes stripped. -/
def contentDispositionFor (key : String) : String :=
  let filename0 := jsLastSegment key
  let filename := if filename0 = "" then "video.mp4" else filename0
  "attachment; filename=\"" ++ String.mk (filename.data.filter (fun c => c ≠ '"')) ++ "\""

/-- `onRequestGet` of `src/functions/api/stream.js`. -/
def streamGet (b : Bucket) (req : StreamRequest) : Response :=
  match req.key? with
  | none => { status := 400, headers := [], body := .text "Missing key" }
  | some key =>
    if key = "" then { status := 400, headers := [], body := .text "Missing key" }
    else
      match r2getObj b key with
      | none => { status := 404, headers := [], body := .text "Not found" }
      | some head =>
        let ct := match head.contentType with
          | some s => if s = "" then "video/mp4" else s
          | none => "video/mp4"
        let totalSize := head.bytes.length
        let baseHeaders :=
          [("Content-Type", ct), ("Accept-Ranges", "bytes"),
           ("Cache-Control", "private, max-age=0, no-store")] ++
          (if req.download? = some "1" then
            [("Content-Disposition", contentDispositionFor key)]
          else [])
        let fullResp : Response :=
          match r2getObj b key with
          | none => { status := 404, headers := [], body := .text "Not found" }
          | some obj =>
            { status := 200,
              headers := baseHeaders ++ [("Content-Length", toString totalSize)],
              body := .bytes obj.bytes }
        match req.rangeHeader? with
        | some rangeHeader =>
          match parseRangeHeader rangeHeader with
          | some (startN, endOpt) =>
            let start : Int := startN
            let endV : Int := match endOpt with
              | some e => (e : Int)
              | none => (totalSize : Int) - 1
            let length : Int := endV - start + 1
            match r2getRange b key start length with
            | .error _ => { status := 500, headers := [], body := .text "Server error" }
            | .ok none => { status := 404, headers := [], body := .text "Not found" }
            | .ok (some bs) =>
              { status := 206,
                headers := baseHeaders ++
                  [("Content-Range",
                      "bytes " ++ toString start ++ "-" ++ toString endV ++ "/" ++
                        toString totalSize),
                   ("Content-Length", toString length)],
                body := .bytes bs }
          | none => fullResp
        | none => fullResp

/-- The content-type guesser of the historical stream variant
(`src/unnamed/part_004`, `guessType`): map the key's lower-cased extension to a
video type, defaulting to `application/octet-stream`. -/
def guessType (k : String) : String :=
  let ext := String.mk (((splitOnChar '.' k.data).getLastD []).map Char.toLower)
  if ext = "mp4" then "video/mp4"
  else if ext = "mov" then "video/quicktime"
  else if ext = "webm" then "video/webm"
  else if ext = "m4v" then "video/x-m4v"
  else "application/octet-stream"

/-! ## The Pointer Resolver — `src/functions/api/sample.js` (latest variant) -/

/-- The environment binding the resolver reads: `env.PUBLIC_BASE`. -/
structure Env where
  publicBase : Option String := none
deriving DecidableEq

/-- The request data `sample.js` reads: the `id` query parameter and the
request URL's origin, plus (unused) further headers. -/
structure SampleRequest where
  id? : Option String
  origin : String
  extraHeaders : List (String × String) := []
deriving DecidableEq

/-- The JSON body shape the resolver returns:
`{ streamUrl, company, link, foundKey?, error?, wantedKey?, message? }`. -/
structure ResolveBody where
  streamUrl : Option String
  company : Option String
  link : Option String
  foundKey : Option String := none
  error : Option String := none
  wantedKey : Option String := none
  message : Option String := none
deriving DecidableEq

/-- A response from the resolver, as built by its `json()` helper. -/
structure JsonResponse where
  status : Nat
  headers : List (String × String)
  body : ResolveBody
deriving DecidableEq

/-- The `json(data)` helper: HTTP 200 (the handler never passes another
status) with JSON content-type headers. -/
def jsonResp (b : ResolveBody) : JsonResponse :=
  { status := 200,
    headers := [("Content-Type", "application/json"), ("Cache-Control", "no-store")],
    body := b }

/-- `x || null` on an optional string: an empty string is falsy and becomes
null. -/
def orNullStr : Option String → Option String
  | some s => if s = "" then none else some s
  | none => none

/-- `(env.PUBLIC_BASE && env.PUBLIC_BASE.trim()) || url.origin`, then
`base.replace(/\/$/, "")`, then the canonical page link for the identifier. -/
def mkLink (env : Env) (origin id : String) : String :=
  let base := match env.publicBase with
    | none => origin
    | some pb => if pb = "" then origin else if pb.trim = "" then origin else pb.trim
  stripOneSlash base ++ "/p/?id=" ++ encodeURIComponent id

/-- The nested-path candidate the resolver tries second:
`baseKey = realKey.replace(/\/+$/, "")`, then
`` `${baseKey}/${baseKey.split("/").pop()}` ``. -/
def nestedKeyOf (k : String) : String :=
  let baseKey := stripTrailingSlashes k
  baseKey ++ "/" ++ jsLastSegment baseKey

/-- The basename of a path-like key in the usual (POSIX) sense, which the
spec's nested-path formula `<key>/<basename(key)>` refers to: the last
non-empty path segment (trailing slashes ignored). -/
def posixBasename (k : String) : String :=
  jsLastSegment (stripTrailingSlashes k)

/-- The prefix used by the third (listing) attempt:
`realKey.endsWith("/") ? realKey : realKey + "/"`. -/
def listPrefixOf (k : String) : String :=
  if k.data.getLast? = some '/' then k else k ++ "/"

/-- The Key Resolution Fallback of `sample.js`: exact `head`, then the nested
path, then a prefix listing limited to one result. -/
def resolveKey (b : Bucket) (k : String) : Option String :=
  match r2getObj b k with
  | some _ => some k
  | none =>
    match r2getObj b (nestedKeyOf k) with
    | some _ => some (nestedKeyOf k)
    | none => listFirst b (listPrefixOf k)

/-- The response of the outermost `catch`:
`json({ streamUrl: null, company: null, link: null, error: "SERVER",
message: String(err) })`. -/
def serverError (msg : String) : JsonResponse :=
  jsonResp { streamUrl := none, company := none, link := none,
             error := some "SERVER", message := some msg }

/-- `onRequestGet` of the latest variant of `src/functions/api/sample.js`
(the `streamUrl` variant, whose every outcome is an HTTP 200 JSON body). -/
def sampleGet (env : Env) (b : Bucket) (req : SampleRequest) : JsonResponse :=
  match req.id? with
  | none =>
    jsonResp { streamUrl := none, company := none, link := none,
               error := some "MISSING_ID" }
  | some id =>
    if id = "" then
      jsonResp { streamUrl := none, company := none, link := none,
                 error := some "MISSING_ID" }
    else
      let link := mkLink env req.origin id
      let pointerKey := "pointers/" ++ id ++ ".json"
      match r2getObj b pointerKey with
      | none =>
        jsonResp { streamUrl := none, company := none, link := some link,
                   error := some "POINTER_NOT_FOUND" }
      | some pobj =>
        match pobj.json with
        | .notJson =>
          -- `pointerObj.json()` throws; the outer catch returns SERVER.
          serverError "SyntaxError: Unexpected token in JSON"
        | .jnull =>
          -- `realKey` becomes "", and building the EMPTY_KEY body evaluates
          -- `pointer.company` on null, which throws; the catch returns SERVER.
          serverError "TypeError: Cannot read properties of null"
        | .jrec key? company? =>
          let realKey := key?.getD ""
          if realKey = "" then
            jsonResp { streamUrl := none, company := orNullStr company?,
                       link := some link, error := some "EMPTY_KEY" }
          else
            match resolveKey b realKey with
            | none =>
              jsonResp { streamUrl := none, company := orNullStr company?,
                         link := some link, error := some "OBJECT_NOT_FOUND",
                         wantedKey := some realKey }
            | some rk =>
              jsonResp { streamUrl := some ("/api/stream?key=" ++ encodeURIComponent rk),
                         company := orNullStr company?, link := some link,
                         foundKey := some rk }

/-! Sanity checks on the spec's §8 scenario (shrunk to a 10-byte object). -/

/-- The §8 scenario bucket. -/
def scenarioBucket : Bucket :=
  [("pointers/jane_acme_com.json",
    { bytes := [], json := .jrec (some "videos/jane_acme_com__tour.mp4") (some "Acme Homes") }),
   ("videos/jane_acme_com__tour.mp4",
    { bytes := List.range 10, contentType := some "video/mp4" })]

/-- The bucket refuting C2 as stated: the pointer's key `v/a/` ends in a
slash.  No object sits at `v/a/` verbatim, and an object does sit at
`<key>/<basename(key)>` = `v/a//a`; but another object, `v/a/ x`, sorts
earlier in listing order. -/
def nestedMissBucket : Bucket :=
  [("pointers/p.json", { bytes := [], json := .jrec (some "v/a/") (some "C") }),
   ("v/a/ x", { bytes := [0] }),
   ("v/a//a", { bytes := [1] })]

/-- The bucket for the clamping counterexample: one 10-byte object. -/
def clampBucket : Bucket := [("v.mp4", { bytes := List.range 10 })]

/-- The bucket for the content-type counterexample: a `.webm` object stored
with no metadata content type. -/
def ctBucket : Bucket := [("clip.webm", { bytes := [0] })]

/-- A bucket whose object carries an empty-string metadata content type
(witness for the empty-string fallback). -/
def emptyCtBucket : Bucket := [("e.bin", { bytes := [1], contentType := some "" })]

/-- A bucket whose pointer key exists only at the nested path
`<key>/<basename(key)>` (witness for the nested-path heuristic). -/
def nestedHitBucket : Bucket :=
  [("pointers/q.json", { bytes := [], json := .jrec (some "videos/tour.mp4") none }),
   ("videos/tour.mp4/tour.mp4", { bytes := [7] })]

/-- A bucket whose pointer names a key with no object anywhere (witness for
the OBJECT_NOT_FOUND outcome). -/
def lostKeyBucket : Bucket :=
  [("pointers/r.json", { bytes := [], json := .jrec (some "videos/gone.mp4") (some "X") })]

/-! Sanity checks on the encoding layer, the range parser, and the §8 scenario. -/

example : encodeURIComponent "videos/a b.mp4" = "videos%2Fa%20b.mp4" := by rfl

example : decodeQueryComponent (encodeURIComponent "videos/a+b c.mp4") = some "videos/a+b c.mp4" := by rfl

example : getQueryParam "key" "key=videos%2Fa%20b.mp4" = some "videos/a b.mp4" := by rfl

example : urlQuery "/api/stream?key=abc" = "key=abc" := by rfl

example : parseRangeHeader "bytes=500-999" = some (500, some 999) := by rfl
example : parseRangeHeader "Bytes=12345-" = some (12345, none) := by rfl
example : parseRangeHeader "bytes=a-b" = none := by rfl
example : parseRangeHeader "bytes=5-9 " = none := by rfl

example :
    (sampleGet { publicBase := some "https://x.pages.dev" } scenarioBucket
      { id? := some "jane_acme_com", origin := "https://o.dev" }).body.foundKey =
      some "videos/jane_acme_com__tour.mp4" := by rfl

example :
    (sampleGet { publicBase := some "https://x.pages.dev" } scenarioBucket
      { id? := some "jane_acme_com", origin := "https://o.dev" }).body.streamUrl =
      some "/api/stream?key=videos%2Fjane_acme_com__tour.mp4" := by rfl

example :
    (streamGet scenarioBucket
      { key? := some "videos/jane_acme_com__tour.mp4",
        rangeHeader? := some "bytes=5-9" }).getHeader "Content-Range" =
      some "bytes 5-9/10" := by rfl

example :
    (streamGet scenarioBucket
      { key? := some "videos/jane_acme_com__tour.mp4",
        rangeHeader? := some "bytes=5-9" }).body = .bytes [5, 6, 7, 8, 9] := by rfl

/-! ## Claim C5: every resolver outcome is an HTTP 200 structured result -/

/-- C5: Every outcome of the resolve endpoint, including all failure outcomes
(MISSING_ID, POINTER_NOT_FOUND, EMPTY_KEY, OBJECT_NOT_FOUND, SERVER), is
delivered as an HTTP 200 response whose body is a structured JSON result,
never as a bare non-200 error response. -/
theorem resolve_always_http200 (env : Env) (b : Bucket) (req : SampleRequest) :
    (sampleGet env b req).status = 200 ∧
    (sampleGet env b req).headers =
      [("Content-Type", "application/json"), ("Cache-Control", "no-store")] := by
  unfold sampleGet
  rcases req.id? with _ | id
  · exact ⟨rfl, rfl⟩
  · dsimp only
    split
    · exact ⟨rfl, rfl⟩
    · rcases r2getObj b ("pointers/" ++ id ++ ".json") with _ | pobj
      · exact ⟨rfl, rfl⟩
      · dsimp only
        rcases pobj.json with _ | _ | ⟨key?, company?⟩
        · exact ⟨rfl, rfl⟩
        · exact ⟨rfl, rfl⟩
        · dsimp only
          split
          · exact ⟨rfl, rfl⟩
          · rcases resolveKey b (key?.getD "") with _ | rk
            · exact ⟨rfl, rfl⟩
            · exact ⟨rfl, rfl⟩

/-! ## Claim C6: no Range header means a full 200 response -/

/-- C6: For every request to the stream endpoint that carries no Range header
and addresses an existing object, the response has status 200,
`Content-Length` equal to the object's full byte size, and a body equal to the
entire object. -/
theorem stream_no_range_serves_full (b : Bucket) (req : StreamRequest)
    (k : String) (o : ObjData)
    (hk : req.key? = some k) (hk0 : k ≠ "")
    (hr : req.rangeHeader? = none)
    (ho : r2getObj b k = some o) :
    (streamGet b req).status = 200 ∧
    (streamGet b req).getHeader "Content-Length" = some (toString o.bytes.length) ∧
    (streamGet b req).body = .bytes o.bytes := by
  unfold streamGet
  simp only [hk, hr, ho, if_neg hk0]
  by_cases hd : req.download? = some "1" <;>
    simp [hd, Response.getHeader]

/-! ## Claim C1: a valid range request yields a correct 206 partial response -/

/-- `toString` agrees on a natural number and its integer image. -/
theorem toString_intOfNat (n : Nat) : toString ((n : Int)) = toString n := rfl

/-- C1: For every object of byte size `size` and every Range request with
`0 ≤ start ≤ end < size`, the stream endpoint returns status 206 with header
`Content-Range: bytes start-end/size`, header `Content-Length` equal to
`end-start+1`, and a body of exactly `end-start+1` bytes (the slice
`[start, end]` of the object). -/
theorem stream_valid_range_206 (b : Bucket) (req : StreamRequest)
    (k rh : String) (o : ObjData) (s e : Nat)
    (hk : req.key? = some k) (hk0 : k ≠ "")
    (ho : r2getObj b k = some o)
    (hr : req.rangeHeader? = some rh)
    (hp : parseRangeHeader rh = some (s, some e))
    (hse : s ≤ e) (hes : e < o.bytes.length) :
    (streamGet b req).status = 206 ∧
    (streamGet b req).getHeader "Content-Range" =
      some ("bytes " ++ toString s ++ "-" ++ toString e ++ "/" ++
        toString o.bytes.length) ∧
    (streamGet b req).getHeader "Content-Length" = some (toString (e - s + 1)) ∧
    (streamGet b req).body = .bytes ((o.bytes.drop s).take (e - s + 1)) ∧
    ((o.bytes.drop s).take (e - s + 1)).length = e - s + 1 := by
  unfold streamGet
  simp only [hk, hr, ho, hp, if_neg hk0]
  unfold r2getRange
  simp only [ho]
  have hcond : (0 : Int) ≤ (s : Int) ∧ (s : Int) < (o.bytes.length : Int) ∧
      (0 : Int) < (e : Int) - (s : Int) + 1 := by
    refine ⟨by positivity, ?_, ?_⟩ <;> omega
  rw [if_pos hcond]
  have hsn : ((s : Int)).toNat = s := by omega
  have hln : ((e : Int) - (s : Int) + 1).toNat = e - s + 1 := by omega
  have hli : (e : Int) - (s : Int) + 1 = ((e - s + 1 : Nat) : Int) := by omega
  rw [hsn, hln, hli, toString_intOfNat]
  by_cases hd : req.download? = some "1" <;>
    simp [hd, Response.getHeader, toString_intOfNat] <;>
    refine ⟨?_, by omega⟩ <;>
    rw [show ((e - s : Nat) : Int) + 1 = ((e - s + 1 : Nat) : Int) by omega,
      toString_intOfNat]

/-! ## Claim C9: OBJECT_NOT_FOUND reports the originally wanted key -/

/-- C9: For every pointer record whose key resolves to no object after all
fallback attempts (exact match, nested path, prefix listing all fail), the
resolve response is OBJECT_NOT_FOUND and its `wantedKey` field equals the
originally intended key from the pointer record, unchanged by the failed
fallback attempts. -/
theorem resolve_total_failure_wantedKey (env : Env) (b : Bucket)
    (req : SampleRequest) (i k : String) (po : ObjData) (comp : Option String)
    (hid : req.id? = some i) (hi0 : i ≠ "")
    (hp : r2getObj b ("pointers/" ++ i ++ ".json") = some po)
    (hj : po.json = .jrec (some k) comp) (hk0 : k ≠ "")
    (h1 : r2getObj b k = none)
    (h2 : r2getObj b (nestedKeyOf k) = none)
    (h3 : listFirst b (listPrefixOf k) = none) :
    (sampleGet env b req).body.error = some "OBJECT_NOT_FOUND" ∧
    (sampleGet env b req).body.wantedKey = some k := by
  unfold sampleGet resolveKey
  simp only [hid, hp, hj, if_neg hi0, Option.getD_some, h1, h2, h3, if_neg hk0]
  exact ⟨rfl, rfl⟩

/-! ## Claim C8: determinism of both handlers -/

/-- C8: For every fixed input (identifier or key plus request headers) and
fixed backend state, two calls to resolve, and two calls to stream, produce
identical responses (identical status, headers, and body) — no hidden
per-request or cross-request state influences the result.  Formally the
handlers are functions of the backend snapshot and exactly the request fields
they read, so two requests agreeing on those fields (whatever other headers
they carry) get identical responses. -/
theorem handlers_deterministic (env : Env) (b : Bucket)
    (r1 r2 : StreamRequest) (q1 q2 : SampleRequest)
    (hkey : r1.key? = r2.key?) (hdl : r1.download? = r2.download?)
    (hrg : r1.rangeHeader? = r2.rangeHeader?)
    (hid : q1.id? = q2.id?) (hor : q1.origin = q2.origin) :
    streamGet b r1 = streamGet b r2 ∧ sampleGet env b q1 = sampleGet env b q2 := by
  constructor
  · unfold streamGet
    rw [hkey, hdl, hrg]
  · unfold sampleGet
    rw [hid, hor]

/-! ## Claim C4: when is the returned `link` non-null? -/

/-- Counterexample to C4 as stated: a request with no identifier is one of the
failure outcomes the claim covers (`MISSING_ID`), yet the returned JSON body
has `link = null`, not a non-null computed link. -/
theorem resolve_missing_id_link_null :
    (sampleGet { publicBase := none } []
        { id? := none, origin := "https://example.org" }).body.error =
      some "MISSING_ID" ∧
    (sampleGet { publicBase := none } []
        { id? := none, origin := "https://example.org" }).body.link = none :=
  ⟨rfl, rfl⟩

/-- C4 (amended): for every request carrying a non-empty identifier whose
outcome is not the SERVER exception path (the pointer record, when present,
parses as a JSON record), the returned JSON body contains a non-null `link`
computed from the identifier and the configured base URL (or the request's
origin as fallback).  The MISSING_ID and SERVER outcomes return `link = null`. -/
theorem resolve_link_nonnull (env : Env) (b : Bucket) (req : SampleRequest)
    (i : String) (hid : req.id? = some i) (hi0 : i ≠ "")
    (hj : ∀ po, r2getObj b ("pointers/" ++ i ++ ".json") = some po →
      po.json ≠ .notJson ∧ po.json ≠ .jnull) :
    (sampleGet env b req).body.link = some (mkLink env req.origin i) := by
  unfold sampleGet
  simp only [hid, if_neg hi0]
  cases hp : r2getObj b ("pointers/" ++ i ++ ".json") with
  | none => rfl
  | some po =>
    obtain ⟨hn, hl⟩ := hj po hp
    cases hjv : po.json with
    | notJson => exact absurd hjv hn
    | jnull => exact absurd hjv hl
    | jrec key? comp? =>
      simp only [hjv]
      split
      · rfl
      · cases resolveKey b (key?.getD "") <;> rfl

/-! ## Claim C2: the nested-path heuristic -/

/-- Stripping trailing slashes from a string that does not end in `/` is the
identity. -/
theorem stripTrailingSlashes_of_not_endsSlash (k : String)
    (h : k.data.getLast? ≠ some '/') : stripTrailingSlashes k = k := by
  unfold stripTrailingSlashes
  cases hrev : k.data.reverse with
  | nil =>
    have h0 : k.data = [] := by
      have := congrArg List.reverse hrev
      simpa using this
    cases k
    simp_all
  | cons c t =>
    have hc : c ≠ '/' := by
      intro hceq
      apply h
      rw [← List.head?_reverse, hrev, hceq]
      rfl
    have hdrop : List.dropWhile (fun ch => ch = '/') (c :: t) = c :: t :=
      List.dropWhile_cons_of_neg (by simp [hc])
    rw [hdrop, ← hrev, List.reverse_reverse]

/-- Counterexample to C2 as stated: for the candidate key `v/a/` (which ends
in `/`), no object exists at the key verbatim and an object does exist at
`<key>/<basename(key)>` = `v/a//a`, yet resolution does not report that nested
path as `foundKey` — the code first strips trailing slashes (probing `v/a/a`,
which misses) and then falls through to the prefix listing, which returns the
earlier-sorting key `v/a/ x`. -/
theorem resolve_nested_path_cex :
    r2getObj nestedMissBucket "v/a/" = none ∧
    posixBasename "v/a/" = "a" ∧
    (r2getObj nestedMissBucket ("v/a/" ++ "/" ++ posixBasename "v/a/")).isSome = true ∧
    (sampleGet { publicBase := none } nestedMissBucket
        { id? := some "p", origin := "https://o" }).body.foundKey =
      some "v/a/ x" ∧
    some "v/a/ x" ≠ some ("v/a/" ++ "/" ++ posixBasename "v/a/") :=
  ⟨by rfl, by rfl, by rfl, by rfl, by decide⟩

/-- C2 (amended): for every candidate key that does not end in `/` such that
no object exists at the key verbatim but an object exists at
`<key>/<basename(key)>` (the last path segment repeated as a child),
resolution finds the object via the nested-path heuristic and the resolve
response reports that nested path as `foundKey`.  (For keys ending in `/` the
code strips the trailing slashes before building the nested candidate, so the
claim's formula does not apply verbatim.) -/
theorem resolve_nested_path_heuristic (env : Env) (b : Bucket)
    (req : SampleRequest) (i k : String) (po o2 : ObjData) (comp : Option String)
    (hid : req.id? = some i) (hi0 : i ≠ "")
    (hp : r2getObj b ("pointers/" ++ i ++ ".json") = some po)
    (hj : po.json = .jrec (some k) comp) (hk0 : k ≠ "")
    (hslash : k.data.getLast? ≠ some '/')
    (h1 : r2getObj b k = none)
    (h2 : r2getObj b (k ++ "/" ++ jsLastSegment k) = some o2) :
    (sampleGet env b req).body.foundKey = some (k ++ "/" ++ jsLastSegment k) ∧
    (sampleGet env b req).body.error = none ∧
    (sampleGet env b req).body.foundKey = some (k ++ "/" ++ posixBasename k) := by
  have hstrip : stripTrailingSlashes k = k :=
    stripTrailingSlashes_of_not_endsSlash k hslash
  have hnest : nestedKeyOf k = k ++ "/" ++ jsLastSegment k := by
    unfold nestedKeyOf
    rw [hstrip]
  have hbase : posixBasename k = jsLastSegment k := by
    unfold posixBasename
    rw [hstrip]
  unfold sampleGet resolveKey
  simp only [hid, hp, hj, if_neg hi0, Option.getD_some, if_neg hk0, h1, hnest, h2]
  refine ⟨by rfl, by rfl, ?_⟩
  rw [hbase]
  rfl

/-! ## Claim C3: no clamping; fallback to the full object only on a
malformed Range header -/

/-- Counterexample to C3 as stated: for `Range: bytes=0-100` on a 10-byte
object the claim requires the end to be clamped to `min(100, 9) = 9`, i.e.
`Content-Range: bytes 0-9/10`; the code instead answers 206 with the
unclamped `Content-Range: bytes 0-100/10`. -/
theorem stream_range_no_clamp_cex :
    (streamGet clampBucket
        { key? := some "v.mp4", rangeHeader? := some "bytes=0-100" }).status = 206 ∧
    (streamGet clampBucket
        { key? := some "v.mp4", rangeHeader? := some "bytes=0-100" }).getHeader
        "Content-Range" = some "bytes 0-100/10" ∧
    some "bytes 0-100/10" ≠ some "bytes 0-9/10" :=
  ⟨by rfl, by rfl, by decide⟩

/-- C3 (amended): the stream endpoint does not clamp the parsed end — a
syntactically valid `bytes=start-end` range is used verbatim in the 206
response headers even when `end ≥ size`; the fallback to serving the full
object happens exactly when the Range header fails the
`bytes=<digits>-<digits>?` grammar (in which case the response is identical
to a request with no Range header at all). -/
theorem stream_range_no_clamp (b : Bucket) (req : StreamRequest)
    (k rh : String) (o : ObjData)
    (hk : req.key? = some k) (hk0 : k ≠ "")
    (ho : r2getObj b k = some o)
    (hr : req.rangeHeader? = some rh) :
    (parseRangeHeader rh = none →
      streamGet b req = streamGet b { req with rangeHeader? := none }) ∧
    (∀ s e : Nat, parseRangeHeader rh = some (s, some e) → s ≤ e →
      s < o.bytes.length →
      (streamGet b req).getHeader "Content-Range" =
        some ("bytes " ++ toString s ++ "-" ++ toString e ++ "/" ++
          toString o.bytes.length)) := by
  constructor
  · intro hp
    unfold streamGet
    simp only [hk, hr, ho, hp, if_neg hk0]
  · intro s e hp hse hs
    unfold streamGet
    simp only [hk, hr, ho, hp, if_neg hk0]
    unfold r2getRange
    simp only [ho]
    have hcond : (0 : Int) ≤ (s : Int) ∧ (s : Int) < (o.bytes.length : Int) ∧
        (0 : Int) < (e : Int) - (s : Int) + 1 := by
      refine ⟨by positivity, ?_, ?_⟩ <;> omega
    rw [if_pos hcond]
    by_cases hd : req.download? = some "1" <;>
      simp [hd, Response.getHeader, toString_intOfNat]

/-! ## Claim C7: content-type selection -/

/-- Counterexample to C7 as stated: for an object with no stored metadata
content type, the claim requires a type guessed from the key's extension
(`video/webm` for `clip.webm`, per the historical variant's own `guessType`),
falling back to `application/octet-stream`; the current stream endpoint
instead answers with the fixed default `video/mp4`. -/
theorem stream_content_type_cex :
    (streamGet ctBucket { key? := some "clip.webm" }).getHeader "Content-Type" =
      some "video/mp4" ∧
    guessType "clip.webm" = "video/webm" ∧
    ("video/mp4" : String) ≠ "video/webm" ∧
    ("video/mp4" : String) ≠ "application/octet-stream" :=
  ⟨by rfl, by rfl, by decide, by decide⟩

/-- C7 (amended): for every streamed object, the response `Content-Type` is
the stored metadata content type when present (and non-empty); otherwise it is
the fixed default `video/mp4` — no type is guessed from the key's file
extension. -/
theorem stream_content_type (b : Bucket) (req : StreamRequest)
    (k : String) (o : ObjData)
    (hk : req.key? = some k) (hk0 : k ≠ "")
    (ho : r2getObj b k = some o)
    (hst : (streamGet b req).status = 200 ∨ (streamGet b req).status = 206) :
    (∀ s, o.contentType = some s → s ≠ "" →
      (streamGet b req).getHeader "Content-Type" = some s) ∧
    (o.contentType = some "" →
      (streamGet b req).getHeader "Content-Type" = some "video/mp4") ∧
    (o.contentType = none →
      (streamGet b req).getHeader "Content-Type" = some "video/mp4") := by
  have hCT : (streamGet b req).getHeader "Content-Type" =
      some (match o.contentType with
        | some s => if s = "" then "video/mp4" else s
        | none => "video/mp4") := by
    unfold streamGet at hst ⊢
    simp only [hk, ho, if_neg hk0] at hst ⊢
    cases hr : req.rangeHeader? with
    | none =>
      try rw [hr] at hst
      try rw [hr]
      by_cases hd : req.download? = some "1" <;> simp [hd, Response.getHeader]
    | some rh =>
      try rw [hr] at hst
      try rw [hr]
      cases hp : parseRangeHeader rh with
      | none =>
        try simp only [hp] at hst
        try simp only [hp]
        by_cases hd : req.download? = some "1" <;> simp [hd, Response.getHeader]
      | some pr =>
        obtain ⟨sN, eopt⟩ := pr
        try simp only [hp] at hst
        try simp only [hp]
        split
        · rename_i heq
          rw [heq] at hst
          simp at hst
        · rename_i heq
          rw [heq] at hst
          simp at hst
        · by_cases hd : req.download? = some "1" <;> simp [hd, Response.getHeader]
  refine ⟨?_, ?_, ?_⟩
  · intro s hs hs0
    rw [hCT, hs]
    simp [hs0]
  · intro hs
    rw [hCT, hs]
    rfl
  · intro hn
    rw [hCT, hn]

/-! ## Claim C10: the resolve→stream round trip

The crux is that decoding the `key` query parameter of the returned
`streamUrl` recovers exactly the resolved key: percent-decoding inverts
`encodeURIComponent`, including the UTF-8 byte layer. -/

/-- Every character's code point is below `0x110000`. -/
theorem char_toNat_lt (c : Char) : c.toNat < 0x110000 := by
  rcases c.valid with h | ⟨_, h⟩
  · have h2 : c.val.toNat < 0xd800 := @UInt32.toNat_lt_of_lt c.val 0xd800 (by norm_num) h
    exact Nat.lt_trans h2 (by norm_num)
  · exact @UInt32.toNat_lt_of_lt c.val 0x110000 (by norm_num) h

/-- `hexVal` inverts `hexChar` on digit values. -/
theorem hexVal_hexChar : ∀ n < 16, hexVal (hexChar n) = some n := by decide

/-- Hex digit characters are never query metacharacters. -/
theorem hexChar_avoid :
    ∀ n < 16, hexChar n ≠ '&' ∧ hexChar n ≠ '=' ∧ hexChar n ≠ '?' := by decide

/-- All UTF-8 bytes are below 256. -/
theorem charBytes_lt (c : Char) : ∀ x ∈ charBytes c, x < 256 := by
  have hv := char_toNat_lt c
  intro x hx
  simp only [charBytes] at hx
  split_ifs at hx <;> simp at hx <;> omega

/-- Percent-decoding a run of `%HH` escapes recovers the escaped bytes. -/
theorem percentDecode_escBytes (bs : List Nat) (r : List Char)
    (hb : ∀ x ∈ bs, x < 256) :
    percentDecodeBytes (bs.flatMap escByte ++ r) =
      (percentDecodeBytes r).map (bs ++ ·) := by
  induction bs with
  | nil =>
    simp only [List.flatMap_nil, List.nil_append]
    cases percentDecodeBytes r <;> rfl
  | cons b bs ih =>
    have hb256 : b < 256 := hb b (List.mem_cons_self b bs)
    have hbs : ∀ x ∈ bs, x < 256 := fun x hx => hb x (List.mem_cons_of_mem b hx)
    simp only [List.flatMap_cons, escByte, List.cons_append, List.nil_append,
      List.append_assoc]
    rw [percentDecodeBytes.eq_def]
    dsimp only
    rw [if_pos rfl]
    rw [hexVal_hexChar (b / 16) (by omega), hexVal_hexChar (b % 16) (by omega)]
    dsimp only
    rw [ih hbs]
    have hbv : 16 * (b / 16) + b % 16 = b := by omega
    rw [hbv]
    cases percentDecodeBytes r <;> rfl

/-- Percent-decoding the encoding of one character contributes exactly its
UTF-8 bytes. -/
theorem percentDecode_encChar (c : Char) (r : List Char) :
    percentDecodeBytes (encChar c ++ r) =
      (percentDecodeBytes r).map (charBytes c ++ ·) := by
  unfold encChar
  by_cases hu : isUnreservedURI c
  · rw [if_pos hu]
    have hc1 : c ≠ '%' := by
      intro h
      rw [h] at hu
      exact absurd hu (by decide)
    have hc2 : c ≠ '+' := by
      intro h
      rw [h] at hu
      exact absurd hu (by decide)
    simp only [List.cons_append, List.nil_append]
    rw [percentDecodeBytes.eq_def]
    dsimp only
    rw [if_neg hc1, if_neg hc2]
  · rw [if_neg hu]
    exact percentDecode_escBytes _ r (charBytes_lt c)

/-- Percent-decoding an `encodeURIComponent` output yields the UTF-8 bytes of
the original string. -/
theorem percentDecode_encode (cs : List Char) :
    percentDecodeBytes (cs.flatMap encChar) = some (cs.flatMap charBytes) := by
  induction cs with
  | nil => rfl
  | cons c cs ih =>
    rw [List.flatMap_cons, percentDecode_encChar, ih, List.flatMap_cons]
    rfl

/-- One-byte UTF-8 decoding step. -/
theorem utf8Decode_one (b : Nat) (r : List Nat) (h : b < 0x80) :
    utf8Decode (b :: r) = (utf8Decode r).map (Char.ofNat b :: ·) := by
  rw [utf8Decode.eq_def]
  dsimp only
  rw [if_pos h]

/-- Two-byte UTF-8 decoding step. -/
theorem utf8Decode_two (b1 b2 : Nat) (r : List Nat)
    (h1 : 0xC0 ≤ b1) (h2 : b1 < 0xE0) (h3 : 0x80 ≤ b2) (h4 : b2 < 0xC0) :
    utf8Decode (b1 :: b2 :: r) =
      (utf8Decode r).map (Char.ofNat ((b1 - 0xC0) * 0x40 + (b2 - 0x80)) :: ·) := by
  have n1 : ¬ b1 < 0x80 := by omega
  have n2 : ¬ b1 < 0xC0 := by omega
  rw [utf8Decode.eq_def]
  dsimp only
  rw [if_neg n1, if_neg n2, if_pos h2, if_pos (And.intro h3 h4)]

/-- Three-byte UTF-8 decoding step. -/
theorem utf8Decode_three (b1 b2 b3 : Nat) (r : List Nat)
    (h1 : 0xE0 ≤ b1) (h2 : b1 < 0xF0)
    (h3 : 0x80 ≤ b2) (h4 : b2 < 0xC0) (h5 : 0x80 ≤ b3) (h6 : b3 < 0xC0) :
    utf8Decode (b1 :: b2 :: b3 :: r) =
      (utf8Decode r).map
        (Char.ofNat ((b1 - 0xE0) * 0x1000 + (b2 - 0x80) * 0x40 + (b3 - 0x80)) :: ·) := by
  have n1 : ¬ b1 < 0x80 := by omega
  have n2 : ¬ b1 < 0xC0 := by omega
  have n3 : ¬ b1 < 0xE0 := by omega
  rw [utf8Decode.eq_def]
  dsimp only
  rw [if_neg n1, if_neg n2, if_neg n3, if_pos h2,
    if_pos (And.intro (And.intro h3 h4) (And.intro h5 h6))]

/-- Four-byte UTF-8 decoding step. -/
theorem utf8Decode_four (b1 b2 b3 b4 : Nat) (r : List Nat)
    (h1 : 0xF0 ≤ b1) (h2 : b1 < 0xF8)
    (h3 : 0x80 ≤ b2) (h4 : b2 < 0xC0) (h5 : 0x80 ≤ b3) (h6 : b3 < 0xC0)
    (h7 : 0x80 ≤ b4) (h8 : b4 < 0xC0) :
    utf8Decode (b1 :: b2 :: b3 :: b4 :: r) =
      (utf8Decode r).map
        (Char.ofNat ((b1 - 0xF0) * 0x40000 + (b2 - 0x80) * 0x1000 +
          (b3 - 0x80) * 0x40 + (b4 - 0x80)) :: ·) := by
  have n1 : ¬ b1 < 0x80 := by omega
  have n2 : ¬ b1 < 0xC0 := by omega
  have n3 : ¬ b1 < 0xE0 := by omega
  have n4 : ¬ b1 < 0xF0 := by omega
  rw [utf8Decode.eq_def]
  dsimp only
  rw [if_neg n1, if_neg n2, if_neg n3, if_neg n4, if_pos h2,
    if_pos (And.intro (And.intro h3 h4) (And.intro (And.intro h5 h6) (And.intro h7 h8)))]

/-- Decoding the UTF-8 bytes of one character recovers that character. -/
theorem utf8Decode_charBytes (c : Char) (r : List Nat) :
    utf8Decode (charBytes c ++ r) = (utf8Decode r).map (c :: ·) := by
  have hv : c.toNat < 0x110000 := char_toNat_lt c
  by_cases h1 : c.toNat < 0x80
  · rw [show charBytes c = [c.toNat] from by simp [charBytes, h1]]
    simp only [List.cons_append, List.nil_append]
    rw [utf8Decode_one _ _ h1, Char.ofNat_toNat]
  · by_cases h2 : c.toNat < 0x800
    · rw [show charBytes c = [0xC0 + c.toNat / 0x40, 0x80 + c.toNat % 0x40] from by
        simp [charBytes, h1, h2]]
      simp only [List.cons_append, List.nil_append]
      rw [utf8Decode_two _ _ _ (by omega) (by omega) (by omega) (by omega)]
      have hval : (0xC0 + c.toNat / 0x40 - 0xC0) * 0x40 +
          (0x80 + c.toNat % 0x40 - 0x80) = c.toNat := by omega
      rw [hval, Char.ofNat_toNat]
    · by_cases h3 : c.toNat < 0x10000
      · rw [show charBytes c =
            [0xE0 + c.toNat / 0x1000, 0x80 + (c.toNat / 0x40) % 0x40,
             0x80 + c.toNat % 0x40] from by simp [charBytes, h1, h2, h3]]
        simp only [List.cons_append, List.nil_append]
        rw [utf8Decode_three _ _ _ _ (by omega) (by omega) (by omega) (by omega)
          (by omega) (by omega)]
        have hval : (0xE0 + c.toNat / 0x1000 - 0xE0) * 0x1000 +
            (0x80 + (c.toNat / 0x40) % 0x40 - 0x80) * 0x40 +
            (0x80 + c.toNat % 0x40 - 0x80) = c.toNat := by omega
        rw [hval, Char.ofNat_toNat]
      · rw [show charBytes c =
            [0xF0 + c.toNat / 0x40000, 0x80 + (c.toNat / 0x1000) % 0x40,
             0x80 + (c.toNat / 0x40) % 0x40, 0x80 + c.toNat % 0x40] from by
          simp [charBytes, h1, h2, h3]]
        simp only [List.cons_append, List.nil_append]
        rw [utf8Decode_four _ _ _ _ _ (by omega) (by omega) (by omega) (by omega)
          (by omega) (by omega) (by omega) (by omega)]
        have hval : (0xF0 + c.toNat / 0x40000 - 0xF0) * 0x40000 +
            (0x80 + (c.toNat / 0x1000) % 0x40 - 0x80) * 0x1000 +
            (0x80 + (c.toNat / 0x40) % 0x40 - 0x80) * 0x40 +
            (0x80 + c.toNat % 0x40 - 0x80) = c.toNat := by omega
        rw [hval, Char.ofNat_toNat]

/-- Decoding the concatenated UTF-8 bytes of a character list recovers the
list. -/
theorem utf8Decode_flatMap_charBytes (cs : List Char) :
    utf8Decode (cs.flatMap charBytes) = some cs := by
  induction cs with
  | nil => rfl
  | cons c cs ih =>
    rw [List.flatMap_cons, utf8Decode_charBytes, ih]
    rfl

/-- Query-component decoding inverts `encodeURIComponent`. -/
theorem decode_encodeURIComponent (s : String) :
    decodeQueryComponent (encodeURIComponent s) = some s := by
  unfold decodeQueryComponent encodeURIComponent
  rw [show (String.mk (s.data.flatMap encChar)).data = s.data.flatMap encChar from rfl]
  rw [percentDecode_encode]
  show (utf8Decode (s.data.flatMap charBytes)).map String.mk = some s
  rw [utf8Decode_flatMap_charBytes]
  rfl

/-- No character of an `encChar` encoding is a query metacharacter. -/
theorem encChar_avoid (c : Char) :
    ∀ x ∈ encChar c, x ≠ '&' ∧ x ≠ '=' ∧ x ≠ '?' := by
  unfold encChar
  by_cases hu : isUnreservedURI c
  · rw [if_pos hu]
    intro x hx
    rw [List.mem_singleton] at hx
    subst hx
    refine ⟨?_, ?_, ?_⟩ <;> intro h <;> rw [h] at hu <;> exact absurd hu (by decide)
  · rw [if_neg hu]
    intro x hx
    rw [List.mem_flatMap] at hx
    obtain ⟨b, hb, hxb⟩ := hx
    have hb256 : b < 256 := charBytes_lt c b hb
    simp only [escByte, List.mem_cons, List.not_mem_nil, or_false] at hxb
    rcases hxb with h | h | h <;> subst h
    · exact ⟨by decide, by decide, by decide⟩
    · exact hexChar_avoid (b / 16) (by omega)
    · exact hexChar_avoid (b % 16) (by omega)

/-- No character of an `encodeURIComponent` output is a query metacharacter. -/
theorem encodeURIComponent_avoid (s : String) :
    ∀ x ∈ (encodeURIComponent s).data, x ≠ '&' ∧ x ≠ '=' ∧ x ≠ '?' := by
  intro x hx
  rw [show (encodeURIComponent s).data = s.data.flatMap encChar from rfl,
    List.mem_flatMap] at hx
  obtain ⟨c, _, hxc⟩ := hx
  exact encChar_avoid c x hxc

/-- Splitting on a character that does not occur returns the whole list. -/
theorem splitOnChar_of_not_mem (sep : Char) (l : List Char) (h : sep ∉ l) :
    splitOnChar sep l = [l] := by
  induction l with
  | nil => rfl
  | cons c r ih =>
    have hc : c ≠ sep := fun hh => h (hh ▸ List.mem_cons_self c r)
    have hr : sep ∉ r := fun hh => h (List.mem_cons_of_mem c hh)
    rw [splitOnChar.eq_def]
    dsimp only
    rw [if_neg hc, ih hr]

/-- Splitting at the first separator occurrence after a clean prefix. -/
theorem splitOnChar_append_sep (sep : Char) (pre rest : List Char)
    (h : sep ∉ pre) :
    splitOnChar sep (pre ++ sep :: rest) = pre :: splitOnChar sep rest := by
  induction pre with
  | nil =>
    rw [List.nil_append, splitOnChar.eq_def]
    dsimp only
    rw [if_pos rfl]
  | cons c p ih =>
    have hc : c ≠ sep := fun hh => h (hh ▸ List.mem_cons_self c p)
    have hp : sep ∉ p := fun hh => h (List.mem_cons_of_mem c hh)
    rw [List.cons_append, splitOnChar.eq_def]
    dsimp only
    rw [if_neg hc, ih hp]

/-- `splitFirstEq` splits at the first `=` after a clean prefix. -/
theorem splitFirstEq_append (pre v : List Char) (h : '=' ∉ pre) :
    splitFirstEq (pre ++ '=' :: v) = (pre, v) := by
  induction pre with
  | nil =>
    rw [List.nil_append, splitFirstEq.eq_def]
    dsimp only
    rw [if_pos rfl]
  | cons c p ih =>
    have hc : c ≠ '=' := fun hh => h (hh ▸ List.mem_cons_self c p)
    have hp : '=' ∉ p := fun hh => h (List.mem_cons_of_mem c hh)
    rw [splitFirstEq.eq_def]
    dsimp only
    rw [List.cons_append]
    dsimp only
    rw [if_neg hc, ih hp]

/-- Looking up `key` in the query `key=<encoded>` recovers the decoded value. -/
theorem getQueryParam_key_enc (fk : String) :
    getQueryParam "key" (String.mk ("key=".data ++ (encodeURIComponent fk).data)) =
      some fk := by
  unfold getQueryParam
  have hamp : '&' ∉ "key=".data ++ (encodeURIComponent fk).data := by
    intro hm
    rcases List.mem_append.mp hm with hm | hm
    · exact absurd hm (by decide)
    · exact absurd rfl (encodeURIComponent_avoid fk '&' hm).1
  rw [show (String.mk ("key=".data ++ (encodeURIComponent fk).data)).data =
      "key=".data ++ (encodeURIComponent fk).data from rfl]
  rw [splitOnChar_of_not_mem '&' _ hamp]
  rw [show ("key=".data ++ (encodeURIComponent fk).data : List Char) =
      "key".data ++ '=' :: (encodeURIComponent fk).data from rfl]
  rw [List.map_cons, List.map_nil]
  rw [splitFirstEq_append _ _ (by decide)]
  dsimp only
  rw [List.find?_cons_of_pos _ (by
    show decide (decodeQueryComponent (String.mk "key".data) = some "key") = true
    rfl)]
  show decodeQueryComponent (String.mk (encodeURIComponent fk).data) = some fk
  rw [show String.mk (encodeURIComponent fk).data = encodeURIComponent fk from rfl]
  exact decode_encodeURIComponent fk

/-- The query part of a produced `streamUrl`. -/
theorem urlQuery_streamUrl (fk : String) :
    urlQuery ("/api/stream?key=" ++ encodeURIComponent fk) =
      String.mk ("key=".data ++ (encodeURIComponent fk).data) := by
  unfold urlQuery
  have hdata : ("/api/stream?key=" ++ encodeURIComponent fk).data =
      "/api/stream".data ++ '?' :: ("key=".data ++ (encodeURIComponent fk).data) := by
    rfl
  rw [hdata]
  have hq : '?' ∉ ("key=".data ++ (encodeURIComponent fk).data : List Char) := by
    intro hm
    rcases List.mem_append.mp hm with hm | hm
    · exact absurd hm (by decide)
    · exact absurd rfl (encodeURIComponent_avoid fk '?' hm).2.2
  rw [splitOnChar_append_sep _ _ _ (by decide),
    splitOnChar_of_not_mem _ _ hq]
  simp [List.intercalate]

/-- In the success branch the resolver's `streamUrl` is the stream path with
the percent-encoded `foundKey`. -/
theorem sampleGet_success_shape (env : Env) (b : Bucket) (req : SampleRequest) :
    ∀ su, (sampleGet env b req).body.streamUrl = some su →
      ∃ rk, su = "/api/stream?key=" ++ encodeURIComponent rk ∧
        (sampleGet env b req).body.foundKey = some rk := by
  intro su hsu
  unfold sampleGet at hsu ⊢
  cases hid : req.id? with
  | none =>
    rw [hid] at hsu
    exact absurd hsu (by simp [jsonResp])
  | some id =>
    rw [hid] at hsu
    dsimp only at hsu ⊢
    split at hsu
    · exact absurd hsu (by simp [jsonResp])
    · rename_i hid0
      rw [if_neg hid0]
      cases hp : r2getObj b ("pointers/" ++ id ++ ".json") with
      | none =>
        try rw [hp] at hsu
        exact absurd hsu (by simp [jsonResp])
      | some pobj =>
        try simp only [hp] at hsu
        try simp only [hp]
        try dsimp only at hsu ⊢
        cases hj : pobj.json with
        | notJson =>
          try rw [hj] at hsu
          exact absurd hsu (by simp [serverError, jsonResp])
        | jnull =>
          try rw [hj] at hsu
          exact absurd hsu (by simp [serverError, jsonResp])
        | jrec key? company? =>
          try simp only [hj] at hsu
          try simp only [hj]
          try dsimp only at hsu ⊢
          split at hsu
          · exact absurd hsu (by simp [jsonResp])
          · rename_i hne
            rw [if_neg hne]
            cases hr : resolveKey b (key?.getD "") with
            | none =>
              try rw [hr] at hsu
              exact absurd hsu (by simp [jsonResp])
            | some rk =>
              try simp only [hr] at hsu
              try simp only [hr]
              try dsimp only [jsonResp] at hsu
              refine ⟨rk, (Option.some.inj hsu).symm, rfl⟩

/-- C10: Round-trip between the two handlers: for every successfully resolved
key, the `streamUrl` returned by resolve equals the stream endpoint path with
the resolved key percent-encoded as its `key` query parameter, so that the
stream endpoint's decoding of that parameter yields exactly the `foundKey`
reported by resolve. -/
theorem resolve_stream_roundtrip (env : Env) (b : Bucket) (req : SampleRequest)
    (su fk : String)
    (hsu : (sampleGet env b req).body.streamUrl = some su)
    (hfk : (sampleGet env b req).body.foundKey = some fk) :
    su = "/api/stream?key=" ++ encodeURIComponent fk ∧
    getQueryParam "key" (urlQuery su) = some fk := by
  obtain ⟨rk, hrk, hfk2⟩ := sampleGet_success_shape env b req su hsu
  have hrkfk : rk = fk := by
    rw [hfk2] at hfk
    exact Option.some.inj hfk
  subst hrkfk
  refine ⟨hrk, ?_⟩
  rw [hrk, urlQuery_streamUrl, getQueryParam_key_enc]

/-! ## Witnesses: each hypothesis-bearing claim theorem applied at a
concrete input -/

/-- Witness for C1 at the §8 scenario: `Range: bytes=5-9` on the 10-byte
object yields a 206 with the right `Content-Range`. -/
theorem stream_valid_range_206_witness :
    (streamGet scenarioBucket
        { key? := some "videos/jane_acme_com__tour.mp4",
          rangeHeader? := some "bytes=5-9" }).status = 206 ∧
    (streamGet scenarioBucket
        { key? := some "videos/jane_acme_com__tour.mp4",
          rangeHeader? := some "bytes=5-9" }).getHeader "Content-Range" =
      some ("bytes " ++ toString 5 ++ "-" ++ toString 9 ++ "/" ++
        toString (List.range 10).length) :=
  have h := stream_valid_range_206 scenarioBucket
    { key? := some "videos/jane_acme_com__tour.mp4", rangeHeader? := some "bytes=5-9" }
    "videos/jane_acme_com__tour.mp4" "bytes=5-9"
    { bytes := List.range 10, contentType := some "video/mp4" } 5 9
    rfl (by decide) (by decide) rfl (by decide) (by decide) (by decide)
  ⟨h.1, h.2.1⟩

/-- Witness for C2 (amended): a key stored only at its nested path is found
there and reported as `foundKey`. -/
theorem resolve_nested_path_heuristic_witness :
    (sampleGet { publicBase := none } nestedHitBucket
        { id? := some "q", origin := "https://o.dev" }).body.foundKey =
      some ("videos/tour.mp4" ++ "/" ++ jsLastSegment "videos/tour.mp4") :=
  (resolve_nested_path_heuristic { publicBase := none } nestedHitBucket
    { id? := some "q", origin := "https://o.dev" } "q" "videos/tour.mp4"
    ⟨[], none, .jrec (some "videos/tour.mp4") none⟩ ⟨[7], none, .notJson⟩ none
    rfl (by decide) (by decide) (by decide) (by decide) (by decide) (by decide)
    (by decide)).1

/-- Witness for C3 (amended): a malformed Range header behaves like no Range
header, and a well-formed over-long range is echoed unclamped. -/
theorem stream_range_no_clamp_witness :
    streamGet clampBucket { key? := some "v.mp4", rangeHeader? := some "bytes=oops" } =
      streamGet clampBucket { key? := some "v.mp4", rangeHeader? := none } ∧
    (streamGet clampBucket
        { key? := some "v.mp4", rangeHeader? := some "bytes=0-100" }).getHeader
        "Content-Range" =
      some ("bytes " ++ toString 0 ++ "-" ++ toString 100 ++ "/" ++
        toString (List.range 10).length) :=
  ⟨(stream_range_no_clamp clampBucket
      { key? := some "v.mp4", rangeHeader? := some "bytes=oops" } "v.mp4" "bytes=oops"
      { bytes := List.range 10 } rfl (by decide) (by decide) rfl).1 (by decide),
   (stream_range_no_clamp clampBucket
      { key? := some "v.mp4", rangeHeader? := some "bytes=0-100" } "v.mp4" "bytes=0-100"
      { bytes := List.range 10 } rfl (by decide) (by decide) rfl).2 0 100 (by decide)
      (by decide) (by decide)⟩

/-- Witness for C4 (amended): with an identifier present, even a plain
resolve failure carries the computed non-null `link`. -/
theorem resolve_link_nonnull_witness :
    (sampleGet { publicBase := none } scenarioBucket
        { id? := some "jane_acme_com", origin := "https://o.dev" }).body.link =
      some (mkLink { publicBase := none } "https://o.dev" "jane_acme_com") :=
  resolve_link_nonnull { publicBase := none } scenarioBucket
    { id? := some "jane_acme_com", origin := "https://o.dev" } "jane_acme_com" rfl
    (by decide)
    (by
      intro po hpo
      have h : some (⟨[], none,
          .jrec (some "videos/jane_acme_com__tour.mp4") (some "Acme Homes")⟩ : ObjData) =
          some po := hpo
      cases Option.some.inj h
      exact ⟨by decide, by decide⟩)

/-- Witness for C6: a no-Range request on the scenario object streams all 10
bytes with status 200. -/
theorem stream_no_range_serves_full_witness :
    (streamGet scenarioBucket
        { key? := some "videos/jane_acme_com__tour.mp4" }).status = 200 ∧
    (streamGet scenarioBucket
        { key? := some "videos/jane_acme_com__tour.mp4" }).body =
      .bytes (List.range 10) :=
  have h := stream_no_range_serves_full scenarioBucket
    { key? := some "videos/jane_acme_com__tour.mp4" } "videos/jane_acme_com__tour.mp4"
    { bytes := List.range 10, contentType := some "video/mp4" } rfl (by decide) rfl
    (by decide)
  ⟨h.1, h.2.2⟩

/-- Witness for C7 (amended): the stored metadata content type is served on a
206 Range response, and an empty-string stored type falls back to
`video/mp4`. -/
theorem stream_content_type_witness :
    (streamGet scenarioBucket
        { key? := some "videos/jane_acme_com__tour.mp4",
          rangeHeader? := some "bytes=5-9" }).getHeader "Content-Type" =
      some "video/mp4" ∧
    (streamGet emptyCtBucket { key? := some "e.bin" }).getHeader "Content-Type" =
      some "video/mp4" :=
  ⟨(stream_content_type scenarioBucket
      { key? := some "videos/jane_acme_com__tour.mp4",
        rangeHeader? := some "bytes=5-9" } "videos/jane_acme_com__tour.mp4"
      { bytes := List.range 10, contentType := some "video/mp4" } rfl (by decide)
      (by decide) (by decide)).1 "video/mp4" rfl (by decide),
   (stream_content_type emptyCtBucket { key? := some "e.bin" } "e.bin"
      { bytes := [1], contentType := some "" } rfl (by decide) (by decide)
      (by decide)).2.1 rfl⟩

/-- Witness for C8: requests differing only in unread extra headers get
identical responses. -/
theorem handlers_deterministic_witness :
    streamGet scenarioBucket
        { key? := some "videos/jane_acme_com__tour.mp4",
          extraHeaders := [("X-Trace", "1")] } =
      streamGet scenarioBucket
        { key? := some "videos/jane_acme_com__tour.mp4", extraHeaders := [] } ∧
    sampleGet { publicBase := none } scenarioBucket
        { id? := some "jane_acme_com", origin := "https://o.dev",
          extraHeaders := [("Cookie", "s=2")] } =
      sampleGet { publicBase := none } scenarioBucket
        { id? := some "jane_acme_com", origin := "https://o.dev", extraHeaders := [] } :=
  handlers_deterministic { publicBase := none } scenarioBucket
    { key? := some "videos/jane_acme_com__tour.mp4", extraHeaders := [("X-Trace", "1")] }
    { key? := some "videos/jane_acme_com__tour.mp4", extraHeaders := [] }
    { id? := some "jane_acme_com", origin := "https://o.dev",
      extraHeaders := [("Cookie", "s=2")] }
    { id? := some "jane_acme_com", origin := "https://o.dev", extraHeaders := [] }
    rfl rfl rfl rfl rfl

/-- Witness for C9: a pointer whose key matches nothing yields
OBJECT_NOT_FOUND carrying that key. -/
theorem resolve_total_failure_wantedKey_witness :
    (sampleGet { publicBase := none } lostKeyBucket
        { id? := some "r", origin := "https://o.dev" }).body.error =
      some "OBJECT_NOT_FOUND" ∧
    (sampleGet { publicBase := none } lostKeyBucket
        { id? := some "r", origin := "https://o.dev" }).body.wantedKey =
      some "videos/gone.mp4" :=
  resolve_total_failure_wantedKey { publicBase := none } lostKeyBucket
    { id? := some "r", origin := "https://o.dev" } "r" "videos/gone.mp4"
    ⟨[], none, .jrec (some "videos/gone.mp4") (some "X")⟩ (some "X")
    rfl (by decide) (by decide) (by decide) (by decide) (by decide) (by decide)
    (by decide)

/-- Witness for C10: the scenario's `streamUrl` decodes back to its
`foundKey`. -/
theorem resolve_stream_roundtrip_witness :
    "/api/stream?key=videos%2Fjane_acme_com__tour.mp4" =
      "/api/stream?key=" ++ encodeURIComponent "videos/jane_acme_com__tour.mp4" ∧
    getQueryParam "key"
        (urlQuery "/api/stream?key=videos%2Fjane_acme_com__tour.mp4") =
      some "videos/jane_acme_com__tour.mp4" :=
  resolve_stream_roundtrip { publicBase := none } scenarioBucket
    { id? := some "jane_acme_com", origin := "https://o.dev" }
    "/api/stream?key=videos%2Fjane_acme_com__tour.mp4"
    "videos/jane_acme_com__tour.mp4" (by rfl) (by rfl)

end Gateway
